import Mathlib

/-!
Verification development for the attention / decoder core of the
`ImageCaptioningSchoolProject` repository (`src/models/attention.py` and
`src/models/sat_model.py`).

Tensors are modelled as functions out of `Fin`-index sets with real entries.
The value `-np.inf` introduced by `masked_fill` is modelled with `WithBot ℝ`
(`⊥` standing for minus infinity); it only ever arises through masking.
Python-level runtime exceptions are modelled with `Except PyError`.
Random draws that steer control flow (`np.random.uniform`) are modelled as
rational inputs so that branch decisions are kernel-computable; tensor data
stays real-valued.
-/

namespace ICSP

/-- Python runtime exceptions that the modelled code can raise. -/
inductive PyError where
  | typeError
  | notImplementedError
deriving DecidableEq

/-- A real vector of length `n`. -/
abbrev Vec (n : ℕ) := Fin n → ℝ

/-- `torch.nn.Linear`: `x ↦ W x + b`. -/
def linear {m n : ℕ} (W : Fin m → Fin n → ℝ) (b : Vec m) (x : Vec n) : Vec m :=
  fun j => (∑ i, W j i * x i) + b j

/-- `torch.nn.functional.relu`. -/
def relu (x : ℝ) : ℝ := max x 0

/-- `torch.sigmoid`. -/
noncomputable def sigmoidR (x : ℝ) : ℝ := 1 / (1 + Real.exp (-x))

/-- `F.softmax` over a real-valued row. -/
noncomputable def softmax {n : ℕ} (e : Vec n) : Vec n :=
  fun i => Real.exp (e i) / ∑ j, Real.exp (e j)

/-- Exponential extended to rows containing `-∞`: `exp (-∞) = 0`. -/
noncomputable def expB (s : WithBot ℝ) : ℝ :=
  WithBot.recBotCoe 0 Real.exp s

/-- `F.softmax` over a row that may contain `-∞` entries (post-`masked_fill`). -/
noncomputable def softmaxB {n : ℕ} (s : Fin n → WithBot ℝ) : Fin n → ℝ :=
  fun i => expB (s i) / ∑ j, expB (s j)

/-- A `True` entry of a boolean tensor used in arithmetic is `1`, `False` is `0`. -/
def boolToR (b : Bool) : ℝ := if b then 1 else 0

/-! ## `SATAttention` (attention.py, lines 24-50) -/

/-- Learned parameters of `SATAttention`: the three `nn.Linear` layers
`feature_shaper : encoder_size → attention_size`,
`hidden_state_shaper : hidden_size → attention_size`,
`attention_model : attention_size → 1`. -/
structure SATAttentionParams (E H A : ℕ) where
  featureShaperW : Fin A → Fin E → ℝ
  featureShaperB : Vec A
  hiddenShaperW : Fin A → Fin H → ℝ
  hiddenShaperB : Vec A
  attentionModelW : Fin 1 → Fin A → ℝ
  attentionModelB : Vec 1

/-- `SATAttention.forward` for one batch element: `feature_vectors : (L, E)`,
`hidden_state : (H)`; returns `(zhat, alpha)`. -/
noncomputable def SATAttention.forward {E H A L : ℕ} (p : SATAttentionParams E H A)
    (featureVectors : Fin L → Vec E) (hiddenState : Vec H) :
    Vec E × (Fin L → ℝ) :=
  let fvShaped : Fin L → Vec A := fun l => linear p.featureShaperW p.featureShaperB (featureVectors l)
  let hShaped : Vec A := linear p.hiddenShaperW p.hiddenShaperB hiddenState
  let e : Fin L → ℝ :=
    fun l => linear p.attentionModelW p.attentionModelB (fun a => relu (fvShaped l a + hShaped a)) 0
  let alpha : Fin L → ℝ := softmax e
  let zhat : Vec E := fun d => ∑ l, featureVectors l d * alpha l
  (zhat, alpha)

/-! ## `Attention.process_masks_and_weights` (attention.py, lines 130-150)

The source reads:
```
if attention_weights is not None:
    attention *= attention_mask
if attention_mask is not None:
    attention = attention.masked_fill(attention_mask, -np.inf)
```
Note that the first branch multiplies by `attention_mask` (a `TypeError` when
the mask is `None`), and that `attention_weights` is never used.  `ι` stands
for the leading (batch, head, query) index of the score tensor, `nk` for the
key axis. -/
def Attention.processMasksAndWeights {ι : Type} {nk : ℕ}
    (attention : ι → Fin nk → ℝ)
    (attention_mask : Option (ι → Fin nk → Bool))
    (attention_weights : Option (ι → Fin nk → ℝ)) :
    Except PyError (ι → Fin nk → WithBot ℝ) := do
  let a1 : ι → Fin nk → ℝ ←
    match attention_weights with
    | none => pure attention
    | some _ =>
      match attention_mask with
      | none => Except.error PyError.typeError
      | some m => pure fun i k => attention i k * boolToR (m i k)
  match attention_mask with
  | none => pure fun i k => ((a1 i k : ℝ) : WithBot ℝ)
  | some m => pure fun i k => if m i k then (⊥ : WithBot ℝ) else ((a1 i k : ℝ) : WithBot ℝ)

/-! ## Multi-head plumbing (attention.py, `preprocess_inputs`, lines 97-128)

`view (batch, n, H, d)` followed by `permute` is index bookkeeping on the
flattened head dimension: flat index `h * d + j` of `Fin (H * d)`. -/

/-- Flat position of coordinate `j` of head `h` inside the flattened
`num_heads * head_size` dimension. -/
def headIdx {H d : ℕ} (h : Fin H) (j : Fin d) : Fin (H * d) :=
  ⟨h.1 * d + j.1, by
    have hh : h.1 + 1 ≤ H := h.2
    calc h.1 * d + j.1 < h.1 * d + d := by omega
      _ = (h.1 + 1) * d := by ring
      _ ≤ H * d := Nat.mul_le_mul_right d hh⟩

/-- Inverse of `headIdx`: split a flat index into `(head, coordinate)`. -/
def headSplit {H d : ℕ} (j : Fin (H * d)) : Fin H × Fin d :=
  have hd : 0 < d := by
    rcases Nat.eq_zero_or_pos d with h | h
    · exact absurd j.2 (by simp [h])
    · exact h
  (⟨j.1 / d, (Nat.div_lt_iff_lt_mul hd).2 j.2⟩, ⟨j.1 % d, Nat.mod_lt _ hd⟩)

/-- Learned parameters of the scaled dot product `Attention` module:
`keygen, querygen : out_size → num_heads * key_size`,
`valuegen : out_size → num_heads * value_size`,
`output : num_heads * value_size → out_size`. -/
structure AttentionParams (E dk dv H : ℕ) where
  keygenW : Fin (H * dk) → Fin E → ℝ
  keygenB : Vec (H * dk)
  querygenW : Fin (H * dk) → Fin E → ℝ
  querygenB : Vec (H * dk)
  valuegenW : Fin (H * dv) → Fin E → ℝ
  valuegenB : Vec (H * dv)
  outputW : Fin E → Fin (H * dv) → ℝ
  outputB : Vec E

/-- `self.scale = 1 / math.sqrt(key_size)`. -/
noncomputable def Attention.scale (dk : ℕ) : ℝ := 1 / Real.sqrt dk

/-- `Attention.preprocess_inputs`: project, split into heads and permute to
`queries : (B, H, Nq, dk)`, `keys : (B, H, dk, Nk)`, `values : (B, H, Nk, dv)`. -/
def Attention.preprocessInputs {B Nq Nk E dk dv H : ℕ} (p : AttentionParams E dk dv H)
    (queries : Fin B → Fin Nq → Vec E) (keys : Fin B → Fin Nk → Vec E)
    (values : Fin B → Fin Nk → Vec E) :
    (Fin B → Fin H → Fin Nq → Fin dk → ℝ) ×
    (Fin B → Fin H → Fin dk → Fin Nk → ℝ) ×
    (Fin B → Fin H → Fin Nk → Fin dv → ℝ) :=
  let q := fun b n => linear p.querygenW p.querygenB (queries b n)
  let k := fun b n => linear p.keygenW p.keygenB (keys b n)
  let v := fun b n => linear p.valuegenW p.valuegenB (values b n)
  ( fun b h n j => q b n (headIdx h j),
    fun b h j n => k b n (headIdx h j),
    fun b h n j => v b n (headIdx h j) )

/-- `attention = torch.matmul(queries, keys) / self.scale` (pre-mask scores),
with the leading `(batch, head, query)` indices packed into a product. -/
noncomputable def Attention.rawScores {B Nq Nk dk H : ℕ}
    (q : Fin B → Fin H → Fin Nq → Fin dk → ℝ)
    (k : Fin B → Fin H → Fin dk → Fin Nk → ℝ) :
    Fin B × Fin H × Fin Nq → Fin Nk → ℝ :=
  fun i m => (∑ j, q i.1 i.2.1 i.2.2 j * k i.1 i.2.1 j m) / Attention.scale dk

/-- The post-softmax attention weights of `Attention.forward`
(`torch.softmax(attention, dim=-1)` after `process_masks_and_weights`). -/
noncomputable def Attention.attnWeights {B Nq Nk E dk dv H : ℕ} (p : AttentionParams E dk dv H)
    (queries : Fin B → Fin Nq → Vec E) (keys : Fin B → Fin Nk → Vec E)
    (values : Fin B → Fin Nk → Vec E)
    (attention_mask : Option (Fin B × Fin H × Fin Nq → Fin Nk → Bool))
    (attention_weights : Option (Fin B × Fin H × Fin Nq → Fin Nk → ℝ)) :
    Except PyError (Fin B × Fin H × Fin Nq → Fin Nk → ℝ) := do
  let pre := Attention.preprocessInputs p queries keys values
  let masked ← Attention.processMasksAndWeights (Attention.rawScores pre.1 pre.2.1)
    attention_mask attention_weights
  pure fun i => softmaxB (masked i)

/-- `Attention.forward`: softmax-weighted combination of the values,
concatenation of the heads and output projection. -/
noncomputable def Attention.forward {B Nq Nk E dk dv H : ℕ} (p : AttentionParams E dk dv H)
    (queries : Fin B → Fin Nq → Vec E) (keys : Fin B → Fin Nk → Vec E)
    (values : Fin B → Fin Nk → Vec E)
    (attention_mask : Option (Fin B × Fin H × Fin Nq → Fin Nk → Bool))
    (attention_weights : Option (Fin B × Fin H × Fin Nq → Fin Nk → ℝ)) :
    Except PyError (Fin B → Fin Nq → Vec E) := do
  let pre := Attention.preprocessInputs p queries keys values
  let w ← Attention.attnWeights p queries keys values attention_mask attention_weights
  let headOut : Fin B → Fin H → Fin Nq → Fin dv → ℝ :=
    fun b h n j => ∑ m, w (b, h, n) m * pre.2.2 b h m j
  pure fun b n => linear p.outputW p.outputB
    (fun j => headOut b (headSplit j).1 n (headSplit j).2)

/-! ## `AttentionWithMemory.process_masks_and_weights` (attention.py, lines 256-280)

The key axis has `nk + M` positions (`M` memory slots appended by
`preprocess_inputs`).  The multiplicative step scales the slice
`attention[..., :key_size]`, the mask step overwrites only
`attention[..., :num_keys]`. -/
def AttentionWithMemory.processMasksAndWeights {ι : Type} {nk M : ℕ} (keySize : ℕ)
    (attention : ι → Fin (nk + M) → ℝ)
    (attention_mask : Option (ι → Fin nk → Bool))
    (attention_weights : Option (ι → Fin (nk + M) → ℝ)) :
    ι → Fin (nk + M) → WithBot ℝ :=
  let a1 : ι → Fin (nk + M) → ℝ :=
    match attention_weights with
    | none => attention
    | some w => fun i k => if (k : ℕ) < keySize then attention i k * w i k else attention i k
  match attention_mask with
  | none => fun i k => ((a1 i k : ℝ) : WithBot ℝ)
  | some m => fun i k =>
      if h : (k : ℕ) < nk then
        (if m i ⟨k, h⟩ then (⊥ : WithBot ℝ) else ((a1 i k : ℝ) : WithBot ℝ))
      else ((a1 i k : ℝ) : WithBot ℝ)

/-! ## Bayesian attention (attention.py, lines 283-448) -/

/-- `nn.LeakyReLU()` with the default negative slope `0.01`. -/
noncomputable def leakyRelu (x : ℝ) : ℝ := if 0 ≤ x then x else 0.01 * x

/-- `np.euler_gamma` (the float constant used by the source). -/
def eulerGamma : ℝ := 0.5772156649015329

/-- The additive constant `eps = 1e-20` of attention.py. -/
def epsR : ℝ := 1e-20

/-- `torch.lgamma`. -/
noncomputable def lgammaR (x : ℝ) : ℝ := Real.log |Real.Gamma x|

/-- Extra learned parameters of `BayesianAttention`: the two prior layers
`prior_layer1 : key_size → out_size`, `prior_layer2 : out_size → 1`, the fixed
scale `beta_gamma = 1` and the Weibull shape `k`. -/
structure BayesPriorParams (E dk : ℕ) where
  priorLayer1W : Fin E → Fin dk → ℝ
  priorLayer1B : Vec E
  priorLayer2W : Fin 1 → Fin E → ℝ
  priorLayer2B : Vec 1
  betaGamma : ℝ
  kWeibull : ℝ

/-- The unmasked contextual-prior scores `dot_gamma` of
`BayesianAttention.compute_prior`: the two-layer projection of the permuted
keys, one score per key position. -/
noncomputable def BayesianAttention.dotGamma {B Nk E dk H : ℕ} (pp : BayesPriorParams E dk)
    (k : Fin B → Fin H → Fin dk → Fin Nk → ℝ) :
    Fin B × Fin H → Fin Nk → ℝ :=
  fun i n =>
    linear pp.priorLayer2W pp.priorLayer2B
      (fun e => leakyRelu (linear pp.priorLayer1W pp.priorLayer1B (fun j => k i.1 i.2 j n) e)) 0

/-- `BayesianAttention.compute_prior`: mask the prior scores (full
`masked_fill` over the key axis in the base class), then
`prior_att_weights = softmax(dot_gamma)` and `alpha_gamma = prior * beta_gamma`. -/
noncomputable def BayesianAttention.computePrior {B Nk E dk H : ℕ} (pp : BayesPriorParams E dk)
    (k : Fin B → Fin H → Fin dk → Fin Nk → ℝ)
    (attention_mask : Option (Fin B × Fin H → Fin Nk → Bool)) :
    Fin B × Fin H → Fin Nk → ℝ :=
  let dg : Fin B × Fin H → Fin Nk → WithBot ℝ :=
    match attention_mask with
    | none => fun i n => ((BayesianAttention.dotGamma pp k i n : ℝ) : WithBot ℝ)
    | some m => fun i n =>
        if m i n then (⊥ : WithBot ℝ) else ((BayesianAttention.dotGamma pp k i n : ℝ) : WithBot ℝ)
  fun i n => pp.betaGamma * softmaxB (dg i) n

/-- `BayesianAttention.stochastic_attention`: perturb the log-softmax scores
with the reparameterized-Weibull noise built from the uniform draw `unif`,
renormalize with softmax, and compute the closed-form KL divergence.
Returns the sampled weights and the mean KL value. -/
noncomputable def BayesianAttention.stochasticAttention {ι : Type} [Fintype ι] {Nk : ℕ}
    (pp : BayesPriorParams E dk)
    (attention : ι → Fin Nk → WithBot ℝ)
    (unif : ι → Fin Nk → ℝ)
    (alphaGamma : ι → Fin Nk → ℝ) :
    (ι → Fin Nk → ℝ) × ℝ :=
  let logprobs : ι → Fin Nk → ℝ := fun i n => Real.log (softmaxB (attention i) n + epsR)
  let sampled : ι → Fin Nk → ℝ := fun i =>
    softmax (fun n =>
      logprobs i n -
        lgammaR (1 + 1 / pp.kWeibull +
          1 / pp.kWeibull * Real.log (-Real.log (1 - unif i n + epsR) + epsR)))
  let kl : ι → Fin Nk → ℝ := fun i n =>
    -(alphaGamma i n * (logprobs i n - lgammaR (1 + 1 / pp.kWeibull))
      - eulerGamma * alphaGamma i n / pp.kWeibull
      - pp.betaGamma *
          Real.exp (logprobs i n - lgammaR (1 + 1 / pp.kWeibull) + lgammaR (1 + 1 / pp.kWeibull))
      + alphaGamma i n * Real.log (pp.betaGamma + epsR)
      - lgammaR (alphaGamma i n + epsR))
  (sampled, (∑ i, ∑ n, kl i n) / ((Fintype.card ι : ℝ) * Nk))

/-- `BayesianAttention.forward`.  `training` is `self.training`; `unif` is the
uniform tensor drawn by `torch.rand_like` (an explicit input here); the second
component of the result is the KL value written to `self.kl` (`none` when the
non-training branch leaves it untouched).  The mask is the padding mask of
shape `(batch, 1, 1, num_keys)`, the only shape that broadcasts against both
the score tensor and the prior scores. -/
noncomputable def BayesianAttention.forward {B Nq Nk E dk dv H : ℕ}
    (p : AttentionParams E dk dv H) (pp : BayesPriorParams E dk) (training : Bool)
    (unif : Fin B × Fin H × Fin Nq → Fin Nk → ℝ)
    (queries : Fin B → Fin Nq → Vec E) (keys : Fin B → Fin Nk → Vec E)
    (values : Fin B → Fin Nk → Vec E)
    (attention_mask : Option (Fin B → Fin Nk → Bool))
    (attention_weights : Option (Fin B × Fin H × Fin Nq → Fin Nk → ℝ)) :
    Except PyError ((Fin B → Fin Nq → Vec E) × Option ℝ) := do
  let pre := Attention.preprocessInputs p queries keys values
  let masked ← Attention.processMasksAndWeights (Attention.rawScores pre.1 pre.2.1)
    (attention_mask.map fun m i n => m i.1 n) attention_weights
  let step : (Fin B × Fin H × Fin Nq → Fin Nk → ℝ) × Option ℝ :=
    if training then
      let prior := BayesianAttention.computePrior pp pre.2.1
        (attention_mask.map fun m i n => m i.1 n)
      let s := BayesianAttention.stochasticAttention pp masked unif
        (fun i n => prior (i.1, i.2.1) n)
      (s.1, some s.2)
    else
      (fun i => softmaxB (masked i), none)
  let headOut : Fin B → Fin H → Fin Nq → Fin dv → ℝ :=
    fun b h n j => ∑ m, step.1 (b, h, n) m * pre.2.2 b h m j
  pure (fun b n => linear p.outputW p.outputB
    (fun j => headOut b (headSplit j).1 n (headSplit j).2), step.2)

/-- `BayesianAttentionWithMemory.compute_prior`, masking stage (attention.py,
lines 401-407): the prior scores over the extended key axis `nk + M`, with
`masked_fill` applied only to the slice `dot_gamma[..., :num_keys]`. -/
noncomputable def BayesianAttentionWithMemory.maskedDotGamma {B nk M E dk H : ℕ}
    (pp : BayesPriorParams E dk)
    (k : Fin B → Fin H → Fin dk → Fin (nk + M) → ℝ)
    (attention_mask : Option (Fin B → Fin nk → Bool)) :
    Fin B × Fin H → Fin (nk + M) → WithBot ℝ :=
  let dg := BayesianAttention.dotGamma pp k
  match attention_mask with
  | none => fun i n => ((dg i n : ℝ) : WithBot ℝ)
  | some m => fun i n =>
      if h : (n : ℕ) < nk then
        (if m i.1 ⟨n, h⟩ then (⊥ : WithBot ℝ) else ((dg i n : ℝ) : WithBot ℝ))
      else ((dg i n : ℝ) : WithBot ℝ)

/-- `BayesianAttentionWithMemory.compute_prior`, final stage:
`alpha_gamma = softmax(dot_gamma) * beta_gamma` over the extended key axis. -/
noncomputable def BayesianAttentionWithMemory.computePrior {B nk M E dk H : ℕ}
    (pp : BayesPriorParams E dk)
    (k : Fin B → Fin H → Fin dk → Fin (nk + M) → ℝ)
    (attention_mask : Option (Fin B → Fin nk → Bool)) :
    Fin B × Fin H → Fin (nk + M) → ℝ :=
  fun i n =>
    pp.betaGamma * softmaxB (BayesianAttentionWithMemory.maskedDotGamma pp k attention_mask i) n

/-! ### Concrete inputs for the `process_masks_and_weights` analysis -/

/-- Concrete score row `[3, 5]` (one leading index). -/
def c1att : Fin 1 → Fin 2 → ℝ := fun _ => ![3, 5]

/-- Concrete mask `[False, True]` (second position masked out). -/
def c1mask : Fin 1 → Fin 2 → Bool := fun _ => ![false, true]

/-- Concrete multiplicative weights `[2, 2]`. -/
def c1weights : Fin 1 → Fin 2 → ℝ := fun _ => ![2, 2]

/-- The deterministic (non-training) pipeline of `BayesianAttention.forward`:
plain softmax over the mask-and-weight-processed scaled dot-product scores,
no sampling, no KL value. -/
noncomputable def BayesianAttention.inferenceForward {B Nq Nk E dk dv H : ℕ}
    (p : AttentionParams E dk dv H)
    (queries : Fin B → Fin Nq → Vec E) (keys : Fin B → Fin Nk → Vec E)
    (values : Fin B → Fin Nk → Vec E)
    (attention_mask : Option (Fin B → Fin Nk → Bool))
    (attention_weights : Option (Fin B × Fin H × Fin Nq → Fin Nk → ℝ)) :
    Except PyError ((Fin B → Fin Nq → Vec E) × Option ℝ) := do
  let pre := Attention.preprocessInputs p queries keys values
  let masked ← Attention.processMasksAndWeights (Attention.rawScores pre.1 pre.2.1)
    (attention_mask.map fun m i n => m i.1 n) attention_weights
  let attW : Fin B × Fin H × Fin Nq → Fin Nk → ℝ := fun i => softmaxB (masked i)
  let headOut : Fin B → Fin H → Fin Nq → Fin dv → ℝ :=
    fun b h n j => ∑ m, attW (b, h, n) m * pre.2.2 b h m j
  pure (fun b n => linear p.outputW p.outputB
    (fun j => headOut b (headSplit j).1 n (headSplit j).2), none)

/-! ## `SATDecoder` (sat_model.py, lines 78-266)

Control flow (`np.random.uniform` draws, the teacher-forcing rate) is modelled
over `ℚ` so branch decisions are kernel-computable; tensor data stays in `ℝ`.
The accumulated output tensors `predictions` and `αs` are modelled as nested
lists so that their shapes are data, not types. -/

/-- Python `max` over a list of naturals (`max(lengths[0])`). -/
def maxNat (l : List ℕ) : ℕ := l.foldr max 0

/-- `SATDecoder.update_scheduled_sampling_rate`: subtract the convergence rate
and clip at zero. -/
def SATDecoder.updateScheduledSamplingRate (rate convergenceRate : ℚ) : ℚ :=
  let r := rate - convergenceRate
  if r ≤ 0 then 0 else r

/-- The per-step scheduled-sampling guard
`scheduled_sampling and np.random.uniform(0, 1) < self._teacher_forcing_rate`. -/
def SATDecoder.teacherForce (scheduledSampling : Bool) (draw rate : ℚ) : Bool :=
  scheduledSampling && decide (draw < rate)

/-- The whole-batch maximum caption length the specification's halting rule
refers to (the largest value anywhere in the supplied `lengths`). -/
def specBatchMaxLength (lengths : List (List ℕ)) : ℕ := maxNat (lengths.map maxNat)

/-- `torch.argmax` over one score row: an index attaining the maximum. -/
noncomputable def argmaxIdx {n : ℕ} (v : Vec n) : ℕ :=
  match (List.finRange n).argmax v with
  | none => 0
  | some j => j.1

/-- Learned parameters and library submodules of `SATDecoder`: the attention
model, the `nn.Linear` layers `fh`, `fc` (state initializers), `f_beta`
(gate), `deep_output` (vocabulary scores), and the framework-provided
`nn.Embedding` lookup, `nn.LSTMCell` transition and `nn.Dropout` map
(modelled as opaque functions since they are torch library code). -/
structure SATDecoderParams (Emb V hid att E : ℕ) where
  attention : SATAttentionParams E hid att
  fhW : Fin hid → Fin E → ℝ
  fhB : Vec hid
  fcW : Fin hid → Fin E → ℝ
  fcB : Vec hid
  fBetaW : Fin E → Fin hid → ℝ
  fBetaB : Vec E
  deepOutputW : Fin V → Fin hid → ℝ
  deepOutputB : Vec V
  embedding : ℕ → Vec Emb
  recurrent : Vec (Emb + E) → Vec hid × Vec hid → Vec hid × Vec hid
  dropout : Vec hid → Vec hid

/-- `SATDecoder.initialize_hidden_states`: ReLU of the `fh`/`fc` projections of
the mean annotation vector. -/
noncomputable def SATDecoder.initializeHiddenStates {Emb V hid att E B L : ℕ}
    (p : SATDecoderParams Emb V hid att E) (x : Fin B → Fin L → Vec E) :
    (Fin B → Vec hid) × (Fin B → Vec hid) :=
  let mean : Fin B → Vec E := fun b d => (∑ l, x b l d) / L
  (fun b j => relu (linear p.fhW p.fhB (mean b) j),
   fun b j => relu (linear p.fcW p.fcB (mean b) j))

/-- The mutable per-forward-pass state of the decoding loop. -/
structure DecState (B hid : ℕ) where
  h : Fin B → Vec hid
  c : Fin B → Vec hid
  prevWords : Fin B → ℕ
  predictions : List (List (List ℝ))
  alphas : List (List (List ℝ))

/-- Slice assignment `t[:, i, :] = rows` on a `(B, steps, d)` tensor stored as
nested lists. -/
def writeRow (B : ℕ) (t : List (List (List ℝ))) (i : ℕ) (rows : Fin B → List ℝ) :
    List (List (List ℝ)) :=
  List.ofFn fun b : Fin B => (t.getD b.1 []).set i (rows b)

/-- The loop body shared by the two scheduled-sampling branches of
`SATDecoder.forward` (they differ only in where the embedded previous token
comes from): attention, gate, LSTM cell, vocabulary scores, `argmax`, and the
writes to `predictions[:, i, :]` and `αs[:, i]`. -/
noncomputable def SATDecoder.cellStep {Emb V hid att E B L : ℕ}
    (p : SATDecoderParams Emb V hid att E)
    (x : Fin B → Fin L → Vec E) (i : ℕ)
    (s : DecState B hid) (embedded : Fin B → Vec Emb) : DecState B hid :=
  let attOut : Fin B → Vec E × (Fin L → ℝ) :=
    fun b => SATAttention.forward p.attention (x b) (s.h b)
  let gate : Fin B → Vec E := fun b d => sigmoidR (linear p.fBetaW p.fBetaB (s.h b) d)
  let zhat : Fin B → Vec E := fun b d => gate b d * (attOut b).1 d
  let hc : Fin B → Vec hid × Vec hid :=
    fun b => p.recurrent (Fin.append (embedded b) (zhat b)) (s.h b, s.c b)
  let scores : Fin B → Vec V :=
    fun b => linear p.deepOutputW p.deepOutputB (p.dropout (hc b).1)
  { h := fun b => (hc b).1
    c := fun b => (hc b).2
    prevWords := fun b => argmaxIdx (scores b)
    predictions := writeRow B s.predictions i (fun b => List.ofFn (scores b))
    alphas := writeRow B s.alphas i (fun b => List.ofFn (attOut b).2) }

/-- One iteration of the decoding loop of `SATDecoder.forward`, including the
teacher-forcing decision and the early `break` (modelled by the `Bool` flag,
which absorbs all later iterations). -/
noncomputable def SATDecoder.decodeStep {Emb V hid att E B L : ℕ}
    (p : SATDecoderParams Emb V hid att E) (rate : ℚ)
    (x : Fin B → Fin L → Vec E)
    (captions : Fin B → ℕ → ℕ) (lengths : List (List ℕ))
    (scheduledSampling : Bool) (draws : ℕ → ℚ)
    (st : DecState B hid × Bool) (i : ℕ) : DecState B hid × Bool :=
  if st.2 then st
  else if SATDecoder.teacherForce scheduledSampling (draws i) rate then
    if i > maxNat lengths.headI then (st.1, true)
    else (SATDecoder.cellStep p x i st.1 (fun b => p.embedding (captions b i)), false)
  else
    (SATDecoder.cellStep p x i st.1 (fun b => p.embedding (st.1.prevWords b)), false)

/-- The state before the loop: initialized hidden/memory vectors, `prev_words`
all zero, `predictions` and `αs` all-zero tensors of shapes
`(B, max_cap, V)` and `(B, max_cap, L)`. -/
noncomputable def SATDecoder.initState {Emb V hid att E B L : ℕ} (maxCap : ℕ)
    (p : SATDecoderParams Emb V hid att E) (x : Fin B → Fin L → Vec E) :
    DecState B hid :=
  let hc := SATDecoder.initializeHiddenStates p x
  { h := hc.1
    c := hc.2
    prevWords := fun _ => 0
    predictions := List.replicate B (List.replicate maxCap (List.replicate V (0 : ℝ)))
    alphas := List.replicate B (List.replicate maxCap (List.replicate L (0 : ℝ))) }

/-- The first `n` iterations of the decoding loop. -/
noncomputable def SATDecoder.decodeRun {Emb V hid att E B L : ℕ} (maxCap : ℕ)
    (p : SATDecoderParams Emb V hid att E) (rate : ℚ)
    (x : Fin B → Fin L → Vec E)
    (captions : Fin B → ℕ → ℕ) (lengths : List (List ℕ))
    (scheduledSampling : Bool) (draws : ℕ → ℚ) (n : ℕ) : DecState B hid × Bool :=
  (List.range n).foldl
    (SATDecoder.decodeStep p rate x captions lengths scheduledSampling draws)
    (SATDecoder.initState maxCap p x, false)

/-- `SATDecoder.forward`, full final state (`for i in range(self._max_cap_size)`). -/
noncomputable def SATDecoder.forwardFull {Emb V hid att E B L : ℕ} (maxCap : ℕ)
    (p : SATDecoderParams Emb V hid att E) (rate : ℚ)
    (x : Fin B → Fin L → Vec E)
    (captions : Fin B → ℕ → ℕ) (lengths : List (List ℕ))
    (scheduledSampling : Bool) (draws : ℕ → ℚ) : DecState B hid × Bool :=
  SATDecoder.decodeRun maxCap p rate x captions lengths scheduledSampling draws maxCap

/-- `SATDecoder.forward`, returned value `(predictions, αs)`. -/
noncomputable def SATDecoder.forward {Emb V hid att E B L : ℕ} (maxCap : ℕ)
    (p : SATDecoderParams Emb V hid att E) (rate : ℚ)
    (x : Fin B → Fin L → Vec E)
    (captions : Fin B → ℕ → ℕ) (lengths : List (List ℕ))
    (scheduledSampling : Bool) (draws : ℕ → ℚ) :
    List (List (List ℝ)) × List (List (List ℝ)) :=
  let r := SATDecoder.forwardFull maxCap p rate x captions lengths scheduledSampling draws
  (r.1.predictions, r.1.alphas)

/-- Shape predicate for a `(a, b, c)` tensor stored as nested lists. -/
def shape3 (t : List (List (List ℝ))) (a b c : ℕ) : Prop :=
  t.length = a ∧ ∀ r ∈ t, r.length = b ∧ ∀ q ∈ r, q.length = c

/-- `BayesianSATDecoder.__init__` raises `NotImplementedError`. -/
def BayesianSATDecoder.construct : Except PyError Unit :=
  Except.error PyError.notImplementedError

/-- `BayesianSATDecoder.forward` raises `NotImplementedError` on every input. -/
def BayesianSATDecoder.forward (_x : List (List (List ℝ))) :
    Except PyError (List (List (List ℝ))) :=
  Except.error PyError.notImplementedError

/-! ### Concrete inputs for the remaining attention claims -/

/-- All-zero `SATAttention` parameters at sizes `E = H = A = 1`. -/
def c8satp : SATAttentionParams 1 1 1 :=
  ⟨fun _ _ => 0, fun _ => 0, fun _ _ => 0, fun _ => 0, fun _ _ => 0, fun _ => 0⟩

/-- A single zero feature vector. -/
def c8fv : Fin 1 → Vec 1 := fun _ _ => 0

/-- A zero hidden state. -/
def c8hs : Vec 1 := fun _ => 0

/-- All-zero `Attention` parameters at sizes `E = dk = dv = H = 1`. -/
def c8p : AttentionParams 1 1 1 1 :=
  ⟨fun _ _ => 0, fun _ => 0, fun _ _ => 0, fun _ => 0, fun _ _ => 0, fun _ => 0,
   fun _ _ => 0, fun _ => 0⟩

/-- A zero query tensor of shape `(1, 1, 1)`. -/
def c8q : Fin 1 → Fin 1 → Vec 1 := fun _ _ _ => 0

/-- A zero key tensor of shape `(1, 1, 1)`. -/
def c8k : Fin 1 → Fin 1 → Vec 1 := fun _ _ _ => 0

/-- A zero value tensor of shape `(1, 1, 1)`. -/
def c8v : Fin 1 → Fin 1 → Vec 1 := fun _ _ _ => 0

/-- Zero prior parameters at `E = dk = 1`, `beta_gamma = 1`, `k = 1`. -/
def c4pp : BayesPriorParams 1 1 :=
  ⟨fun _ _ => 0, fun _ => 0, fun _ _ => 0, fun _ => 0, 1, 1⟩

/-- A zero per-head key tensor over an extended key axis `1 + 1`. -/
def c4keys : Fin 1 → Fin 1 → Fin 1 → Fin (1 + 1) → ℝ := fun _ _ _ _ => 0

/-- Zero scores over an extended key axis `1 + 1` (one leading index). -/
def c4att : Fin 1 → Fin (1 + 1) → ℝ := fun _ _ => 0

/-- A mask that blocks every non-memory key position (leading index form). -/
def c4maskI : Fin 1 → Fin 1 → Bool := fun _ _ => true

/-- A mask that blocks every non-memory key position (batch form). -/
def c4maskC : Fin 1 → Fin 1 → Bool := fun _ _ => true

/-- Multiplicative weights over the extended key axis. -/
def c4w : Fin 1 → Fin (1 + 1) → ℝ := fun _ _ => 2

/-- Row `t[b, j, :]` of a `(B, steps, d)` tensor stored as nested lists. -/
def row3 (t : List (List (List ℝ))) (b j : ℕ) : List ℝ := (t.getD b []).getD j []

/-- All-zero decoder parameters at unit sizes; the LSTM cell is modelled as
the identity on the state pair and dropout as the identity map. -/
def cdecp : SATDecoderParams 1 1 1 1 1 where
  attention := c8satp
  fhW := fun _ _ => 0
  fhB := fun _ => 0
  fcW := fun _ _ => 0
  fcB := fun _ => 0
  fBetaW := fun _ _ => 0
  fBetaB := fun _ => 0
  deepOutputW := fun _ _ => 0
  deepOutputB := fun _ => 0
  embedding := fun _ _ => 0
  recurrent := fun _ hc => hc
  dropout := fun v => v

/-- Zero annotation tensor, batch size 2. -/
def cdecx2 : Fin 2 → Fin 1 → Vec 1 := fun _ _ _ => 0

/-- Zero caption tokens, batch size 2. -/
def cdeccaps2 : Fin 2 → ℕ → ℕ := fun _ _ => 0

/-- Zero annotation tensor, batch size 1. -/
def cdecx1 : Fin 1 → Fin 1 → Vec 1 := fun _ _ _ => 0

/-- Zero caption tokens, batch size 1. -/
def cdeccaps1 : Fin 1 → ℕ → ℕ := fun _ _ => 0

/-- The degenerate stream of uniform draws `0, 0, 0, …`. -/
def draws0 : ℕ → ℚ := fun _ => 0

end ICSP

namespace ICSP

/-! ## Helper lemmas -/

theorem expB_bot : expB ⊥ = 0 := rfl

theorem expB_nonneg (s : WithBot ℝ) : 0 ≤ expB s := by
  induction s using WithBot.recBotCoe with
  | bot => exact le_refl 0
  | coe x => exact (Real.exp_pos x).le

theorem sum_softmax_eq_one {n : ℕ} (hn : 0 < n) (e : Vec n) : ∑ i, softmax e i = 1 := by
  have hne : Nonempty (Fin n) := Fin.pos_iff_nonempty.1 hn
  have hS : 0 < ∑ j, Real.exp (e j) :=
    Finset.sum_pos (fun j _ => Real.exp_pos _) Finset.univ_nonempty
  unfold softmax
  rw [← Finset.sum_div, div_self hS.ne']

theorem sum_softmaxB_eq_one {n : ℕ} (s : Fin n → WithBot ℝ) (h : ∃ m, s m ≠ ⊥) :
    ∑ i, softmaxB s i = 1 := by
  obtain ⟨m, hm⟩ := h
  obtain ⟨x, hx⟩ := WithBot.ne_bot_iff_exists.1 hm
  have hS : 0 < ∑ j, expB (s j) :=
    Finset.sum_pos' (fun j _ => expB_nonneg _)
      ⟨m, Finset.mem_univ m, by rw [← hx]; exact Real.exp_pos x⟩
  unfold softmaxB
  rw [← Finset.sum_div, div_self hS.ne']

/-- C1: In the scaled multi-head `Attention` forward pass with both a mask and
multiplicative weights supplied, the claim says the scores are first scaled by
`attention_weights` and then masked positions are set to `-∞`.  Evaluating the
embedded `process_masks_and_weights` at scores `[3,5]`, mask `[False,True]`,
weights `[2,2]`: the masked position does end at `-∞`, but the unmasked score
becomes `3 * 0 = 0` (the code multiplies by the boolean mask tensor), not
`3 * 2 = 6` as scaling by the weights argument would give. -/
theorem C1_multiplicative_step_uses_mask_not_weights :
    ∃ r, Attention.processMasksAndWeights c1att (some c1mask) (some c1weights) = Except.ok r
      ∧ r 0 0 = ((0 : ℝ) : WithBot ℝ)
      ∧ r 0 1 = (⊥ : WithBot ℝ)
      ∧ c1att 0 0 * c1weights 0 0 = 6
      ∧ ((0 : ℝ) : WithBot ℝ) ≠ ((6 : ℝ) : WithBot ℝ) := by
  refine ⟨_, rfl, ?_, ?_, ?_, ?_⟩
  · simp [c1att, c1mask, boolToR]
  · simp [c1mask]
  · norm_num [c1att, c1weights]
  · exact fun h => by norm_num at h

/-- C2: the claim says `Attention.forward` succeeds whenever
`attention_weights` is supplied and `attention_mask` is absent.  In the code
this input raises a `TypeError` (`attention *= None`): the embedded
`process_masks_and_weights` returns the error for every score tensor and every
weights argument. -/
theorem C2_weights_without_mask_raises {ι : Type} {nk : ℕ}
    (attention : ι → Fin nk → ℝ) (w : ι → Fin nk → ℝ) :
    Attention.processMasksAndWeights attention none (some w) =
      Except.error PyError.typeError := rfl

/-- C4: in `AttentionWithMemory.process_masks_and_weights` and in the Bayesian
memory variant's `compute_prior`, an externally supplied mask only affects the
first `num_keys` positions of the key axis: every memory-slot position
(index `≥ nk`) is never set to `-∞`, for every mask and weights configuration. -/
theorem C4_memory_slots_never_masked {ι : Type} {nk M : ℕ} (keySize : ℕ)
    (attention : ι → Fin (nk + M) → ℝ)
    (mask : Option (ι → Fin nk → Bool)) (w : Option (ι → Fin (nk + M) → ℝ))
    {B E dk H : ℕ} (pp : BayesPriorParams E dk)
    (keyT : Fin B → Fin H → Fin dk → Fin (nk + M) → ℝ)
    (maskB : Option (Fin B → Fin nk → Bool))
    (i : ι) (j : Fin B × Fin H) (kpos : Fin (nk + M)) (hk : nk ≤ (kpos : ℕ)) :
    AttentionWithMemory.processMasksAndWeights keySize attention mask w i kpos ≠ ⊥ ∧
    BayesianAttentionWithMemory.maskedDotGamma pp keyT maskB j kpos ≠ ⊥ := by
  have hnotlt : ¬ ((kpos : ℕ) < nk) := not_lt.2 hk
  constructor
  · unfold AttentionWithMemory.processMasksAndWeights
    cases mask with
    | none => simp
    | some m => simp [hnotlt]
  · unfold BayesianAttentionWithMemory.maskedDotGamma
    cases maskB with
    | none => simp
    | some m => simp [hnotlt]

/-- C4 witness: with one input key (fully masked) and one memory slot, the
memory-slot position of the scores and of the prior scores is not `-∞`. -/
theorem C4_memory_slots_never_masked_witness :
    (1 : ℕ) ≤ ((1 : Fin (1 + 1)) : ℕ) ∧
    AttentionWithMemory.processMasksAndWeights 1 c4att (some c4maskI) (some c4w) 0 1 ≠ ⊥ ∧
    BayesianAttentionWithMemory.maskedDotGamma c4pp c4keys (some c4maskC) (0, 0) 1 ≠ ⊥ := by
  refine ⟨by decide, ?_⟩
  exact C4_memory_slots_never_masked (M := 1) 1 c4att (some c4maskI) (some c4w)
    c4pp c4keys (some c4maskC) 0 (0, 0) 1 (by decide)

/-- C5: with training mode off, `BayesianAttention.forward` ignores the
uniform random tensor entirely (any two calls with identical inputs agree for
arbitrary random draws), and equals the deterministic plain-softmax pipeline
`inferenceForward` — no sampling, no KL value. -/
theorem C5_inference_deterministic {B Nq Nk E dk dv H : ℕ}
    (p : AttentionParams E dk dv H) (pp : BayesPriorParams E dk)
    (unif₁ unif₂ : Fin B × Fin H × Fin Nq → Fin Nk → ℝ)
    (q : Fin B → Fin Nq → Vec E) (k v : Fin B → Fin Nk → Vec E)
    (mask : Option (Fin B → Fin Nk → Bool))
    (w : Option (Fin B × Fin H × Fin Nq → Fin Nk → ℝ)) :
    BayesianAttention.forward p pp false unif₁ q k v mask w =
      BayesianAttention.forward p pp false unif₂ q k v mask w ∧
    BayesianAttention.forward p pp false unif₁ q k v mask w =
      BayesianAttention.inferenceForward p q k v mask w := by
  constructor
  · unfold BayesianAttention.forward
    simp
  · unfold BayesianAttention.forward BayesianAttention.inferenceForward
    simp

/-- C8: attention weights are a probability distribution over the key axis:
the `alpha` returned by `SATAttention.forward` sums to 1 over the `L`
annotation positions (for `L ≥ 1`), and the post-softmax weights of the
multi-head `Attention.forward` sum to 1 along the key axis whenever at least
one position is unmasked, with every masked position contributing weight 0. -/
theorem C8_attention_weights_sum_to_one :
    (∀ (E H A L : ℕ) (p : SATAttentionParams E H A) (fv : Fin L → Vec E) (hs : Vec H),
        0 < L → ∑ l, (SATAttention.forward p fv hs).2 l = 1) ∧
    (∀ (B Nq Nk E dk dv H : ℕ) (p : AttentionParams E dk dv H)
        (q : Fin B → Fin Nq → Vec E) (k v : Fin B → Fin Nk → Vec E)
        (mask : Option (Fin B × Fin H × Fin Nq → Fin Nk → Bool))
        (w : Option (Fin B × Fin H × Fin Nq → Fin Nk → ℝ))
        (a : Fin B × Fin H × Fin Nq → Fin Nk → WithBot ℝ),
        Attention.processMasksAndWeights
            (Attention.rawScores (Attention.preprocessInputs p q k v).1
              (Attention.preprocessInputs p q k v).2.1) mask w = Except.ok a →
        Attention.attnWeights p q k v mask w = Except.ok (fun i => softmaxB (a i)) ∧
        ∀ i, (∃ m, a i m ≠ ⊥) →
          ∑ m, softmaxB (a i) m = 1 ∧ ∀ m, a i m = ⊥ → softmaxB (a i) m = 0) := by
  constructor
  · intro E H A L p fv hs hL
    exact sum_softmax_eq_one hL _
  · intro B Nq Nk E dk dv H p q k v mask w a ha
    constructor
    · simp only [Attention.attnWeights]
      rw [ha]
      rfl
    · intro i hi
      exact ⟨sum_softmaxB_eq_one _ hi,
        fun m hm => by simp [softmaxB, hm, expB_bot, zero_div]⟩

/-- C8 witness: at concrete all-zero inputs, the `SATAttention` alpha over one
position sums to 1, and the post-softmax multi-head weights over one unmasked
key position sum to 1. -/
theorem C8_attention_weights_sum_to_one_witness :
    (0 < 1 ∧ ∑ l, (SATAttention.forward c8satp c8fv c8hs).2 l = 1) ∧
    ∑ m, softmaxB ((fun (i : Fin 1 × Fin 1 × Fin 1) (m2 : Fin 1) =>
        ((Attention.rawScores (Attention.preprocessInputs c8p c8q c8k c8v).1
          (Attention.preprocessInputs c8p c8q c8k c8v).2.1 i m2 : ℝ) : WithBot ℝ)) (0, 0, 0)) m
      = 1 := by
  refine ⟨⟨by decide,
    C8_attention_weights_sum_to_one.1 1 1 1 1 c8satp c8fv c8hs (by decide)⟩, ?_⟩
  exact ((C8_attention_weights_sum_to_one.2 1 1 1 1 1 1 1 c8p c8q c8k c8v none none _
    rfl).2 (0, 0, 0) ⟨0, WithBot.coe_ne_bot⟩).1

/-! ## Decoder helper lemmas -/

theorem foldl_inv {α β : Type} (P : β → Prop) (f : β → α → β) (l : List α) (b : β)
    (h0 : P b) (hstep : ∀ y a, P y → P (f y a)) : P (l.foldl f b) := by
  induction l generalizing b with
  | nil => exact h0
  | cons a l ih => exact ih _ (hstep _ _ h0)

theorem decodeStep_stopped {Emb V hid att E B L : ℕ}
    (p : SATDecoderParams Emb V hid att E) (rate : ℚ) (x : Fin B → Fin L → Vec E)
    (captions : Fin B → ℕ → ℕ) (lengths : List (List ℕ)) (ss : Bool) (draws : ℕ → ℚ)
    (s : DecState B hid) (i : ℕ) :
    SATDecoder.decodeStep p rate x captions lengths ss draws (s, true) i = (s, true) := rfl

theorem foldl_range_break {σ : Type} (f : σ × Bool → ℕ → σ × Bool)
    (habs : ∀ s a, f (s, true) a = (s, true))
    (b : σ × Bool) (i n : ℕ) (hi : i < n)
    (hbr : f ((List.range i).foldl f b) i = (((List.range i).foldl f b).1, true)) :
    (List.range n).foldl f b = (((List.range i).foldl f b).1, true) := by
  have habsl : ∀ (l : List ℕ) (s : σ), l.foldl f (s, true) = (s, true) := by
    intro l
    induction l with
    | nil => intro s; rfl
    | cons a l ih => intro s; rw [List.foldl_cons, habs]; exact ih s
  obtain ⟨k, hk⟩ : ∃ k, n = (i + 1) + k := ⟨n - (i + 1), by omega⟩
  subst hk
  rw [List.range_add, List.foldl_append, List.range_succ, List.foldl_append]
  simp only [List.foldl_cons, List.foldl_nil]
  rw [hbr, habsl]

theorem decodeStep_cases {Emb V hid att E B L : ℕ}
    (p : SATDecoderParams Emb V hid att E) (rate : ℚ) (x : Fin B → Fin L → Vec E)
    (captions : Fin B → ℕ → ℕ) (lengths : List (List ℕ)) (ss : Bool) (draws : ℕ → ℚ)
    (st : DecState B hid × Bool) (i : ℕ) :
    SATDecoder.decodeStep p rate x captions lengths ss draws st i = st ∨
    SATDecoder.decodeStep p rate x captions lengths ss draws st i = (st.1, true) ∨
    ∃ emb, SATDecoder.decodeStep p rate x captions lengths ss draws st i =
      (SATDecoder.cellStep p x i st.1 emb, false) := by
  unfold SATDecoder.decodeStep
  split_ifs with h1 h2 h3
  · exact Or.inl rfl
  · exact Or.inr (Or.inl rfl)
  · exact Or.inr (Or.inr ⟨_, rfl⟩)
  · exact Or.inr (Or.inr ⟨_, rfl⟩)

theorem writeRow_getD (B : ℕ) (t : List (List (List ℝ))) (i : ℕ)
    (rows : Fin B → List ℝ) (b : ℕ) (hb : b < B) :
    (writeRow B t i rows).getD b [] = (t.getD b []).set i (rows ⟨b, hb⟩) := by
  simp [writeRow, List.getD_eq_getElem?_getD, List.getElem?_ofFn, List.ofFnNthVal, hb]

theorem shape3_writeRow {B maxCap d : ℕ} {t : List (List (List ℝ))} (i : ℕ)
    (rows : Fin B → List ℝ) (hrows : ∀ b, (rows b).length = d)
    (ht : shape3 t B maxCap d) : shape3 (writeRow B t i rows) B maxCap d := by
  obtain ⟨hlen, hall⟩ := ht
  constructor
  · simp [writeRow]
  · intro r hr
    simp only [writeRow, List.mem_ofFn] at hr
    obtain ⟨b, rfl⟩ := hr
    have hblt : b.1 < t.length := hlen ▸ b.2
    have hmem : t.getD b.1 [] ∈ t := by
      simp only [List.getD_eq_getElem?_getD, List.getElem?_eq_getElem hblt, Option.getD_some]
      exact List.getElem_mem hblt
    obtain ⟨hrl, hrq⟩ := hall _ hmem
    refine ⟨by rw [List.length_set]; exact hrl, ?_⟩
    intro q hq
    rcases List.mem_or_eq_of_mem_set hq with h | h
    · exact hrq q h
    · rw [h]; exact hrows b

theorem shape3_replicate (B maxCap d : ℕ) :
    shape3 (List.replicate B (List.replicate maxCap (List.replicate d (0 : ℝ)))) B maxCap d := by
  refine ⟨List.length_replicate .., ?_⟩
  intro r hr
  rw [List.eq_of_mem_replicate hr]
  refine ⟨List.length_replicate .., ?_⟩
  intro q hq
  rw [List.eq_of_mem_replicate hq]
  exact List.length_replicate ..

theorem decodeStep_shape {Emb V hid att E B L : ℕ} (maxCap : ℕ)
    (p : SATDecoderParams Emb V hid att E) (rate : ℚ) (x : Fin B → Fin L → Vec E)
    (captions : Fin B → ℕ → ℕ) (lengths : List (List ℕ)) (ss : Bool) (draws : ℕ → ℚ)
    (st : DecState B hid × Bool) (i : ℕ)
    (h : shape3 st.1.predictions B maxCap V ∧ shape3 st.1.alphas B maxCap L) :
    shape3 (SATDecoder.decodeStep p rate x captions lengths ss draws st i).1.predictions
        B maxCap V ∧
    shape3 (SATDecoder.decodeStep p rate x captions lengths ss draws st i).1.alphas
        B maxCap L := by
  rcases decodeStep_cases p rate x captions lengths ss draws st i with hc | hc | ⟨emb, hc⟩ <;>
    rw [hc]
  · exact h
  · exact h
  · simp only [SATDecoder.cellStep]
    exact ⟨shape3_writeRow _ _ (fun b => List.length_ofFn _) h.1,
           shape3_writeRow _ _ (fun b => List.length_ofFn _) h.2⟩

theorem decodeRun_shape {Emb V hid att E B L : ℕ} (maxCap : ℕ)
    (p : SATDecoderParams Emb V hid att E) (rate : ℚ) (x : Fin B → Fin L → Vec E)
    (captions : Fin B → ℕ → ℕ) (lengths : List (List ℕ)) (ss : Bool) (draws : ℕ → ℚ)
    (n : ℕ) :
    shape3 (SATDecoder.decodeRun maxCap p rate x captions lengths ss draws n).1.predictions
        B maxCap V ∧
    shape3 (SATDecoder.decodeRun maxCap p rate x captions lengths ss draws n).1.alphas
        B maxCap L := by
  unfold SATDecoder.decodeRun
  exact foldl_inv
    (fun st => shape3 st.1.predictions B maxCap V ∧ shape3 st.1.alphas B maxCap L)
    (SATDecoder.decodeStep p rate x captions lengths ss draws)
    (List.range n) (SATDecoder.initState maxCap p x, false)
    ⟨shape3_replicate B maxCap V, shape3_replicate B maxCap L⟩
    (fun y a hy => decodeStep_shape maxCap p rate x captions lengths ss draws y a hy)

theorem decodeStep_row_ne {Emb V hid att E B L : ℕ}
    (p : SATDecoderParams Emb V hid att E) (rate : ℚ) (x : Fin B → Fin L → Vec E)
    (captions : Fin B → ℕ → ℕ) (lengths : List (List ℕ)) (ss : Bool) (draws : ℕ → ℚ)
    (st : DecState B hid × Bool) (i j : ℕ) (hne : j ≠ i) (b : ℕ) (hb : b < B) :
    row3 (SATDecoder.decodeStep p rate x captions lengths ss draws st i).1.predictions b j =
      row3 st.1.predictions b j ∧
    row3 (SATDecoder.decodeStep p rate x captions lengths ss draws st i).1.alphas b j =
      row3 st.1.alphas b j := by
  rcases decodeStep_cases p rate x captions lengths ss draws st i with hc | hc | ⟨emb, hc⟩ <;>
    rw [hc]
  · exact ⟨rfl, rfl⟩
  · exact ⟨rfl, rfl⟩
  · simp only [SATDecoder.cellStep]
    constructor <;>
    · rw [row3, writeRow_getD _ _ _ _ b hb]
      simp [List.getD_eq_getElem?_getD, List.getElem?_set_ne (Ne.symm hne), row3]

theorem decodeRun_row_init {Emb V hid att E B L : ℕ} (maxCap : ℕ)
    (p : SATDecoderParams Emb V hid att E) (rate : ℚ) (x : Fin B → Fin L → Vec E)
    (captions : Fin B → ℕ → ℕ) (lengths : List (List ℕ)) (ss : Bool) (draws : ℕ → ℚ)
    (n j : ℕ) (hj : n ≤ j) (b : ℕ) (hb : b < B) :
    row3 (SATDecoder.decodeRun maxCap p rate x captions lengths ss draws n).1.predictions b j =
      row3 (SATDecoder.initState maxCap p x).predictions b j ∧
    row3 (SATDecoder.decodeRun maxCap p rate x captions lengths ss draws n).1.alphas b j =
      row3 (SATDecoder.initState maxCap p x).alphas b j := by
  induction n with
  | zero => exact ⟨rfl, rfl⟩
  | succ n ih =>
    have hstep : SATDecoder.decodeRun maxCap p rate x captions lengths ss draws (n + 1) =
        SATDecoder.decodeStep p rate x captions lengths ss draws
          (SATDecoder.decodeRun maxCap p rate x captions lengths ss draws n) n := by
      unfold SATDecoder.decodeRun
      rw [List.range_succ, List.foldl_append]
      rfl
    rw [hstep]
    have h1 := decodeStep_row_ne p rate x captions lengths ss draws
      (SATDecoder.decodeRun maxCap p rate x captions lengths ss draws n) n j
      (by omega) b hb
    exact ⟨h1.1.trans (ih (by omega)).1, h1.2.trans (ih (by omega)).2⟩

theorem initState_row {Emb V hid att E B L : ℕ} (maxCap : ℕ)
    (p : SATDecoderParams Emb V hid att E) (x : Fin B → Fin L → Vec E)
    (b j : ℕ) (hb : b < B) (hj : j < maxCap) :
    row3 (SATDecoder.initState maxCap p x).predictions b j = List.replicate V (0 : ℝ) ∧
    row3 (SATDecoder.initState maxCap p x).alphas b j = List.replicate L (0 : ℝ) := by
  constructor <;>
    simp [SATDecoder.initState, row3, List.getD_eq_getElem?_getD, List.getElem?_replicate,
      hb, hj]

theorem forwardFull_of_break {Emb V hid att E B L : ℕ} (maxCap : ℕ)
    (p : SATDecoderParams Emb V hid att E) (rate : ℚ) (x : Fin B → Fin L → Vec E)
    (captions : Fin B → ℕ → ℕ) (lengths : List (List ℕ)) (ss : Bool) (draws : ℕ → ℚ)
    (i : ℕ) (hi : i < maxCap)
    (hrun : (SATDecoder.decodeRun maxCap p rate x captions lengths ss draws i).2 = false)
    (hstop : (SATDecoder.decodeStep p rate x captions lengths ss draws
      (SATDecoder.decodeRun maxCap p rate x captions lengths ss draws i) i).2 = true) :
    SATDecoder.forwardFull maxCap p rate x captions lengths ss draws =
      ((SATDecoder.decodeRun maxCap p rate x captions lengths ss draws i).1, true) := by
  have hbreak : SATDecoder.decodeStep p rate x captions lengths ss draws
      (SATDecoder.decodeRun maxCap p rate x captions lengths ss draws i) i =
      ((SATDecoder.decodeRun maxCap p rate x captions lengths ss draws i).1, true) := by
    rcases decodeStep_cases p rate x captions lengths ss draws
        (SATDecoder.decodeRun maxCap p rate x captions lengths ss draws i) i with
      hc | hc | ⟨emb, hc⟩
    · rw [hc] at hstop; rw [hrun] at hstop; exact absurd hstop (by decide)
    · exact hc
    · rw [hc] at hstop; simp at hstop
  exact foldl_range_break _
    (fun s a => decodeStep_stopped p rate x captions lengths ss draws s a)
    _ i maxCap hi hbreak

/-- C3 counterexample: the claim predicts that with `lengths = [[1], [5]]`
(whole-batch maximum 5) and 4 decoding steps under permanent teacher forcing,
the loop never halts early (every step index `0..3` is at most 5); but the
code's halting test `i > max(lengths[0])` compares against the first batch
element only, and the loop does halt early (the stop flag of the final state
is set). -/
theorem C3_counterexample :
    (SATDecoder.forwardFull 4 cdecp 1 cdecx2 cdeccaps2 [[1], [5]] true draws0).2 = true ∧
    ((List.range 4).all fun i => decide (i ≤ specBatchMaxLength [[1], [5]])) = true :=
  ⟨rfl, by decide⟩

/-- C3 (amended): under the teacher-forcing branch the decoding loop halts
early at step `i` exactly when `i` exceeds `max(lengths[0])` — the maximum of
the FIRST batch element's lengths entry, not the maximum over the whole
batch. -/
theorem C3_early_halt_uses_first_batch_entry {Emb V hid att E B L : ℕ}
    (p : SATDecoderParams Emb V hid att E) (rate : ℚ) (x : Fin B → Fin L → Vec E)
    (captions : Fin B → ℕ → ℕ) (lengths : List (List ℕ)) (ss : Bool) (draws : ℕ → ℚ)
    (st : DecState B hid × Bool) (i : ℕ) (h2 : st.2 = false) :
    (SATDecoder.decodeStep p rate x captions lengths ss draws st i).2 = true ↔
      SATDecoder.teacherForce ss (draws i) rate = true ∧ i > maxNat lengths.headI := by
  rcases st with ⟨s, flag⟩
  simp only at h2
  subst h2
  simp only [SATDecoder.decodeStep, Bool.false_eq_true, if_false]
  split_ifs with htf hbr
  · simp [htf, hbr]
  · simp [htf, hbr]
  · simp [htf]

/-- C3 witness: at step 2 with `lengths = [[1], [5]]` and a certain
teacher-forcing draw, the loop halts exactly because `2 > max(lengths[0]) = 1`. -/
theorem C3_early_halt_uses_first_batch_entry_witness :
    (SATDecoder.decodeStep cdecp 1 cdecx2 cdeccaps2 [[1], [5]] true draws0
        (SATDecoder.initState 4 cdecp cdecx2, false) 2).2 = true ↔
      SATDecoder.teacherForce true (draws0 2) 1 = true ∧
        2 > maxNat (List.headI [[1], [5]]) :=
  C3_early_halt_uses_first_batch_entry cdecp 1 cdecx2 cdeccaps2 [[1], [5]] true draws0
    (SATDecoder.initState 4 cdecp cdecx2, false) 2 rfl

/-- C6: `update_scheduled_sampling_rate` maps the rate to
`max (rate - convergence_rate) 0` (so with a non-negative convergence rate and
a non-negative current rate it is non-increasing and never negative), and with
the rate at 0 the teacher-forcing branch is never taken for any non-negative
uniform draw: the guard is false and a decoding step never sets the early-halt
flag. -/
theorem C6_scheduled_sampling_rate_clamps {Emb V hid att E B L : ℕ}
    (p : SATDecoderParams Emb V hid att E) (x : Fin B → Fin L → Vec E)
    (captions : Fin B → ℕ → ℕ) (lengths : List (List ℕ)) (ss : Bool)
    (draws : ℕ → ℚ) (i : ℕ) (st : DecState B hid × Bool)
    (r c d : ℚ) (hc : 0 ≤ c) (hr : 0 ≤ r) (hd : 0 ≤ d) (hdi : 0 ≤ draws i) :
    SATDecoder.updateScheduledSamplingRate r c = max (r - c) 0 ∧
    SATDecoder.updateScheduledSamplingRate r c ≤ r ∧
    0 ≤ SATDecoder.updateScheduledSamplingRate r c ∧
    SATDecoder.teacherForce ss d 0 = false ∧
    (SATDecoder.decodeStep p 0 x captions lengths ss draws st i).2 = st.2 := by
  have h1 : SATDecoder.updateScheduledSamplingRate r c = max (r - c) 0 := by
    unfold SATDecoder.updateScheduledSamplingRate
    dsimp only
    split_ifs with h
    · exact (max_eq_right h).symm
    · exact (max_eq_left (le_of_lt (lt_of_not_le h))).symm
  have h4 : ∀ d' : ℚ, 0 ≤ d' → SATDecoder.teacherForce ss d' 0 = false := by
    intro d' hd'
    unfold SATDecoder.teacherForce
    simp [not_lt.2 hd']
  refine ⟨h1, ?_, ?_, h4 d hd, ?_⟩
  · rw [h1]; exact max_le (by linarith) hr
  · rw [h1]; exact le_max_right _ _
  · rcases st with ⟨s, flag⟩
    cases flag with
    | true => rfl
    | false =>
      simp only [SATDecoder.decodeStep]
      simp [h4 (draws i) hdi]

/-- C6 witness: a concrete rate update `1 ↦ 1 - 1/2` and a concrete decoding
step at rate 0 with draw 0 that does not set the early-halt flag. -/
theorem C6_scheduled_sampling_rate_clamps_witness :
    SATDecoder.updateScheduledSamplingRate 1 (1 / 2) = max (1 - 1 / 2) 0 ∧
    SATDecoder.updateScheduledSamplingRate 1 (1 / 2) ≤ 1 ∧
    0 ≤ SATDecoder.updateScheduledSamplingRate 1 (1 / 2) ∧
    SATDecoder.teacherForce true 0 0 = false ∧
    (SATDecoder.decodeStep cdecp 0 cdecx1 cdeccaps1 [[0]] true draws0
        (SATDecoder.initState 2 cdecp cdecx1, false) 0).2 =
      (SATDecoder.initState 2 cdecp cdecx1, false).2 :=
  C6_scheduled_sampling_rate_clamps cdecp cdecx1 cdeccaps1 [[0]] true draws0 0
    (SATDecoder.initState 2 cdecp cdecx1, false) 1 (1 / 2) 0
    (by norm_num) (by norm_num) (by norm_num) (le_refl 0)

/-- C7: for every batch size, annotation count, captions, lengths,
scheduled-sampling flag and draw stream, `SATDecoder.forward` returns a
prediction tensor of shape exactly `(B, maxCap, V)` and an attention-weight
tensor of shape exactly `(B, maxCap, L)`. -/
theorem C7_output_shapes {Emb V hid att E B L : ℕ} (maxCap : ℕ)
    (p : SATDecoderParams Emb V hid att E) (rate : ℚ) (x : Fin B → Fin L → Vec E)
    (captions : Fin B → ℕ → ℕ) (lengths : List (List ℕ)) (ss : Bool) (draws : ℕ → ℚ) :
    shape3 (SATDecoder.forward maxCap p rate x captions lengths ss draws).1 B maxCap V ∧
    shape3 (SATDecoder.forward maxCap p rate x captions lengths ss draws).2 B maxCap L :=
  decodeRun_shape maxCap p rate x captions lengths ss draws maxCap

/-- C9: the Bayesian LSTM decoder variant is an unimplemented stub: its
constructor raises `NotImplementedError`, and its `forward` raises
`NotImplementedError` on every input. -/
theorem C9_bayesian_decoder_raises :
    BayesianSATDecoder.construct = Except.error PyError.notImplementedError ∧
    ∀ x, BayesianSATDecoder.forward x = Except.error PyError.notImplementedError :=
  ⟨rfl, fun _ => rfl⟩

/-- C10: when the teacher-forcing early exit triggers at step `i` (the run of
the first `i` iterations is not stopped, and iteration `i` sets the stop
flag), every row of the returned prediction and attention tensors at steps
`j ≥ i` is still the all-zero row it was initialized to. -/
theorem C10_rows_after_break_stay_zero {Emb V hid att E B L : ℕ} (maxCap : ℕ)
    (p : SATDecoderParams Emb V hid att E) (rate : ℚ) (x : Fin B → Fin L → Vec E)
    (captions : Fin B → ℕ → ℕ) (lengths : List (List ℕ)) (ss : Bool) (draws : ℕ → ℚ)
    (i : ℕ) (hi : i < maxCap)
    (hrun : (SATDecoder.decodeRun maxCap p rate x captions lengths ss draws i).2 = false)
    (hstop : (SATDecoder.decodeStep p rate x captions lengths ss draws
      (SATDecoder.decodeRun maxCap p rate x captions lengths ss draws i) i).2 = true)
    (j : ℕ) (hij : i ≤ j) (hj : j < maxCap) (b : ℕ) (hb : b < B) :
    row3 (SATDecoder.forward maxCap p rate x captions lengths ss draws).1 b j =
      List.replicate V (0 : ℝ) ∧
    row3 (SATDecoder.forward maxCap p rate x captions lengths ss draws).2 b j =
      List.replicate L (0 : ℝ) := by
  have hff := forwardFull_of_break maxCap p rate x captions lengths ss draws i hi hrun hstop
  have hrow := decodeRun_row_init maxCap p rate x captions lengths ss draws i j hij b hb
  have hinit := initState_row maxCap p x b j hb hj
  constructor
  · show row3 (SATDecoder.forwardFull maxCap p rate x captions lengths ss
      draws).1.predictions b j = _
    rw [hff]
    exact hrow.1.trans hinit.1
  · show row3 (SATDecoder.forwardFull maxCap p rate x captions lengths ss
      draws).1.alphas b j = _
    rw [hff]
    exact hrow.2.trans hinit.2

/-- C10 witness: a concrete run (batch 1, two steps, `lengths = [[0]]`,
permanent teacher forcing) that breaks at step 1; the row of each output
tensor at step 1 is all-zero. -/
theorem C10_rows_after_break_stay_zero_witness :
    row3 (SATDecoder.forward 2 cdecp 1 cdecx1 cdeccaps1 [[0]] true draws0).1 0 1 =
      List.replicate 1 (0 : ℝ) ∧
    row3 (SATDecoder.forward 2 cdecp 1 cdecx1 cdeccaps1 [[0]] true draws0).2 0 1 =
      List.replicate 1 (0 : ℝ) :=
  C10_rows_after_break_stay_zero 2 cdecp 1 cdecx1 cdeccaps1 [[0]] true draws0 1
    (by decide) rfl rfl 1 (by decide) (by decide) 0 (by decide)

end ICSP
